import Mathlib

/-!
Shallow embedding of the multi-provider consensus analysis engine of the
journalism-and-literacy repository, together with proofs of the stated
properties.

The embedded code is `scripts/consensus_analyzer.py` (class
`ConsensusAnalyzer`: `_initialize_providers`, `_analyze_with_provider`,
`analyze_article`, `_normalize_sentence`, `_calculate_consensus`) and
`scripts/llm/base.py` (`BaseLLMProvider._clean_json_response`,
`BaseLLMProvider._parse_json_response`).

Python dicts are embedded as association lists in insertion order (a key
occurs at most once; assigning to an existing key updates it in place,
assigning a fresh key appends it at the end), which is exactly the
observable behaviour of Python dict iteration.  Provider objects and their
remote calls are embedded by their observable behaviour: a call either
raises an exception carrying a message, returns a dict of
sentence-to-reason pairs, or returns a non-dict value.
-/

namespace Consensus

/-- Whitespace as stripped by Python `str.strip()` with no arguments,
restricted to the ASCII whitespace characters (space, tab, newline,
carriage return, vertical tab, form feed); the Unicode-only space
characters play no role in any property considered here. -/
def pyIsSpace (c : Char) : Bool :=
  c == ' ' || c == '\t' || c == '\n' || c == '\r' || c == '\x0b' || c == '\x0c'

/-- Python `str.strip()` on the character list of a string: drop whitespace
from the front, then from the back. -/
def pyStrip (l : List Char) : List Char :=
  ((l.dropWhile pyIsSpace).reverse.dropWhile pyIsSpace).reverse

/-- Python `str.strip()` on strings. -/
def pyStripStr (s : String) : String :=
  ⟨pyStrip s.data⟩

/-- Embeds `ConsensusAnalyzer._normalize_sentence`: `return sentence.strip()`. -/
def normalizeSentence (s : String) : String :=
  pyStripStr s

/-- Embeds the test `if not article_text or not article_text.strip()` at the
top of `ConsensusAnalyzer.analyze_article`. -/
def isBlank (s : String) : Bool :=
  s.data.isEmpty || (pyStrip s.data).isEmpty

/-- Observable behaviour of one provider call `llm.analyze(prompt)`:
it raises an exception with a message, returns a dict (sentence-to-reason
pairs in insertion order), or returns a non-dict value. -/
inductive AnalyzeOutcome where
  | raises (msg : String)
  | returnsDict (d : List (String × String))
  | returnsNonDict
deriving DecidableEq, Repr

/-- Result dict built by `ConsensusAnalyzer._analyze_with_provider`:
`{'provider': ..., 'success': ..., 'sentences': ..., 'error': ...}`. -/
structure ProviderResult where
  provider : String
  success : Bool
  sentences : List (String × String)
  error : Option String
deriving DecidableEq, Repr

/-- Embeds `ConsensusAnalyzer._analyze_with_provider`: a dict response is
kept, a non-dict response is replaced by `{}` (the
`response if isinstance(response, dict) else {}` line), and any raised
exception is caught and turned into a failure result carrying the message. -/
def analyzeWithProvider (name : String) (o : AnalyzeOutcome) : ProviderResult :=
  match o with
  | .raises msg => ⟨name, false, [], some msg⟩
  | .returnsDict d => ⟨name, true, d, none⟩
  | .returnsNonDict => ⟨name, true, [], none⟩

/-- One entry of the `sentence_map` defaultdict in
`ConsensusAnalyzer._calculate_consensus`: `{'selected_by': [...], 'reasons': {...}}`. -/
structure SentenceEntry where
  selected_by : List String
  reasons : List (String × String)
deriving DecidableEq, Repr

/-- One element of the `consensus_sentences` list built by
`ConsensusAnalyzer._calculate_consensus`. -/
structure ConsensusSentence where
  text : String
  consensus_score : Nat
  consensus_level : String
  selected_by : List String
  reasons : List (String × String)
deriving DecidableEq, Repr

/-- The dict returned by `ConsensusAnalyzer.analyze_article` /
`_calculate_consensus`.  The failure dicts returned by the empty-article
branch and the all-failed branch carry only `success`, `error` and
`sentences`; the remaining fields are set to `0` / `[]` there, standing for
absent keys. -/
structure ConsensusResult where
  success : Bool
  error : Option String
  total_providers : Nat
  successful_providers : List String
  failed_providers : List String
  sentences : List ConsensusSentence
  count : Nat
deriving DecidableEq, Repr

/-- Embeds `reasons[provider] = reason` on the `reasons` dict: update the
existing key in place, or append a fresh key at the end. -/
def setReason (rs : List (String × String)) (p r : String) : List (String × String) :=
  match rs with
  | [] => [(p, r)]
  | e :: rest => if e.1 = p then (p, r) :: rest else e :: setReason rest p r

/-- Embeds the `sentence_map[normalized]` defaultdict access followed by
`['selected_by'].append(provider)` and `['reasons'][provider] = reason`:
the first entry keyed `k` is updated in place, and a missing key creates a
fresh entry at the end. -/
def bumpEntry (m : List (String × SentenceEntry)) (k p r : String) :
    List (String × SentenceEntry) :=
  match m with
  | [] => [(k, ⟨[p], [(p, r)]⟩)]
  | e :: rest =>
    if e.1 = k then
      (k, ⟨e.2.selected_by ++ [p], setReason e.2.reasons p r⟩) :: rest
    else
      e :: bumpEntry rest k p r

/-- Embeds the body of the inner loop of `_calculate_consensus`:
`normalized = self._normalize_sentence(sentence)` followed by the two
`sentence_map` updates. -/
def addSentence (p : String) (m : List (String × SentenceEntry))
    (kv : String × String) : List (String × SentenceEntry) :=
  bumpEntry m (normalizeSentence kv.1) p kv.2

/-- Embeds one iteration of the outer loop of `_calculate_consensus`:
all `(sentence, reason)` pairs of one successful result are folded into the
sentence map in insertion order. -/
def addProvider (m : List (String × SentenceEntry)) (r : ProviderResult) :
    List (String × SentenceEntry) :=
  r.sentences.foldl (addSentence r.provider) m

/-- Embeds the sentence-map construction of `_calculate_consensus` over the
successful results, in collection order. -/
def buildSentenceMap (rs : List ProviderResult) : List (String × SentenceEntry) :=
  rs.foldl addProvider []

/-- Embeds the consensus-level computation of `_calculate_consensus`:
one provider means always `high`; two providers mean `high` exactly at
score 2 and otherwise `low`; the remaining branch grades `high` at score
at least 3, `medium` at score 2, and otherwise `low`. -/
def consensusLevel (total score : Nat) : String :=
  if total = 1 then "high"
  else if total = 2 then (if score = 2 then "high" else "low")
  else if 3 ≤ score then "high"
  else if score = 2 then "medium"
  else "low"

/-- Embeds the construction of one `consensus_sentences` element from a
sentence-map entry: `consensus_score = len(data['selected_by'])` and the
level derived from it. -/
def mkConsensusSentence (total : Nat) (e : String × SentenceEntry) : ConsensusSentence :=
  ⟨e.1, e.2.selected_by.length, consensusLevel total e.2.selected_by.length,
    e.2.selected_by, e.2.reasons⟩

/-- Stable insertion of a sentence into a score-descending list built by a
right fold: the elements already in the list all come later in the original
list, so on an equal score the inserted element goes first. -/
def insertDesc (x : ConsensusSentence) :
    List ConsensusSentence → List ConsensusSentence
  | [] => [x]
  | y :: ys =>
    if y.consensus_score ≤ x.consensus_score then x :: y :: ys
    else y :: insertDesc x ys

/-- Embeds `consensus_sentences.sort(key=lambda x: x['consensus_score'],
reverse=True)`: a stable sort by score descending (Python `list.sort` is
stable, and stability determines the output uniquely, so any stable
realization is faithful). -/
def sortByScoreDesc (l : List ConsensusSentence) : List ConsensusSentence :=
  l.foldr insertDesc []

/-- Embeds `ConsensusAnalyzer._calculate_consensus`.  `totalInstances` is
`len(self.llm_instances)`; `results` is the collected outcome list in
completion order. -/
def calculateConsensus (totalInstances : Nat) (results : List ProviderResult) :
    ConsensusResult :=
  let successful := results.filter (fun r => r.success)
  if successful.isEmpty then
    ⟨false, some "All providers failed", 0, [], [], [], 0⟩
  else
    let cs := sortByScoreDesc
      ((buildSentenceMap successful).map (mkConsensusSentence successful.length))
    ⟨true, none, totalInstances,
      successful.map (fun r => r.provider),
      (results.filter (fun r => !r.success)).map (fun r => r.provider),
      cs, cs.length⟩

/-- Embeds `ConsensusAnalyzer.analyze_article`.  `calls` lists the
constructed providers with the behaviour of their dispatched call, in
completion order (`as_completed` collection order).  The second component
records which calls were dispatched: the empty-article branch returns
before the executor is entered, so it dispatches none. -/
def analyzeArticle (text : String) (calls : List (String × AnalyzeOutcome)) :
    ConsensusResult × List (String × AnalyzeOutcome) :=
  if isBlank text then
    (⟨false, some "Empty article text", 0, [], [], [], 0⟩, [])
  else
    (calculateConsensus calls.length
      (calls.map (fun c => analyzeWithProvider c.1 c.2)), calls)

/-- The provider names supported by the consensus analyzer
(`SUPPORTED_PROVIDERS`). -/
def SUPPORTED_PROVIDERS : List String :=
  ["gemini", "openai", "claude", "mistral"]

/-- Keep the first occurrence of every name, dropping later duplicates:
the key set of a Python dict filled by repeated assignment. -/
def dedupKeepFirst (seen : List String) : List String → List String
  | [] => []
  | x :: xs =>
    if seen.contains x then dedupKeepFirst seen xs
    else x :: dedupKeepFirst (x :: seen) xs

/-- Embeds the key list of `self.llm_instances` after
`ConsensusAnalyzer._initialize_providers`: unsupported names are skipped,
construction failures (`ok` false, the caught `APIKeyError` and friends)
are skipped, and duplicates collapse because the instances live in a dict
keyed by name. -/
def instancesOf (requested : List String) (ok : String → Bool) : List String :=
  dedupKeepFirst [] ((requested.filter (fun p => SUPPORTED_PROVIDERS.contains p)).filter ok)

/-- Embeds one whole run of the engine: `ConsensusAnalyzer(providers=requested)`
followed by `analyze_article(text)`.  When every requested provider fails
construction, `_initialize_providers` raises
`ValueError("No LLM providers initialized. ...")`, embedded as the
`Except.error` case; otherwise the run returns the result of
`analyze_article`, dispatching one call per constructed instance. -/
def consensusRun (requested : List String) (ok : String → Bool) (text : String)
    (outs : String → AnalyzeOutcome) : Except String ConsensusResult :=
  let instances := instancesOf requested ok
  if instances.isEmpty then
    Except.error "No LLM providers initialized"
  else
    Except.ok (analyzeArticle text (instances.map (fun p => (p, outs p)))).1

/-- Tests whether a dispatched call's behaviour is collected as a success
by `_analyze_with_provider` (everything except a raised exception). -/
def outcomeSucceeds (o : AnalyzeOutcome) : Bool :=
  match o with
  | .raises _ => false
  | _ => true

/-- Invariant of one sentence-map entry during the aggregation fold: the
keys of `reasons` list exactly the providers of `selected_by` in order,
no provider repeats, and every provider comes from the processed set. -/
def EntryInv (done : List String) (e : String × SentenceEntry) : Prop :=
  e.2.reasons.map Prod.fst = e.2.selected_by ∧
  e.2.selected_by.Nodup ∧
  ∀ q ∈ e.2.selected_by, q ∈ done

/-- States that the sentences of one call's returned dict stay distinct
after trim-normalization (vacuous for a failed call or a non-dict value,
whose collected sentence dict is empty). -/
def NormKeysNodup : AnalyzeOutcome → Prop
  | .returnsDict d => (d.map (fun kv => normalizeSentence kv.1)).Nodup
  | _ => True

instance (o : AnalyzeOutcome) : Decidable (NormKeysNodup o) := by
  cases o <;> simp only [NormKeysNodup] <;> infer_instance

end Consensus

namespace LLMBase

/-- JSON values as returned by Python `json.loads`: object keys are always
strings there, and numbers are abstracted to integers because the embedded
validation only ever distinguishes strings from non-strings. -/
inductive JValue where
  | null
  | bool (b : Bool)
  | num (n : Int)
  | str (s : String)
  | arr (l : List JValue)
  | obj (kvs : List (String × JValue))

/-- Tests whether a JSON value is a string (`isinstance(value, str)`). -/
def JValue.isStr : JValue → Bool
  | .str _ => true
  | _ => false

/-- The string carried by a JSON string value, defaulting elsewhere. -/
def JValue.strValue : JValue → String
  | .str s => s
  | _ => ""

/-- Python `text.startswith(pre)` on character lists. -/
def startsWithCh : List Char → List Char → Bool
  | [], _ => true
  | _ :: _, [] => false
  | p :: ps, c :: cs => p == c && startsWithCh ps cs

/-- Python `text.startswith(pre)` on strings. -/
def pyStartsWith (s pre : String) : Bool :=
  startsWithCh pre.data s.data

/-- Python `text.split(sep)` for a non-empty separator, fuelled by the
length of the text (each step consumes at least one character, so the fuel
`l.length + 1` always suffices). -/
def pySplitAux (sep : List Char) : Nat → List Char → List Char → List (List Char)
  | 0, l, acc => [acc.reverse ++ l]
  | fuel + 1, l, acc =>
    if startsWithCh sep l && !sep.isEmpty then
      acc.reverse :: pySplitAux sep fuel (l.drop sep.length) []
    else
      match l with
      | [] => [acc.reverse]
      | c :: rest => pySplitAux sep fuel rest (c :: acc)

/-- Python `s.split(sep)` on strings (non-empty separator). -/
def pySplit (s sep : String) : List String :=
  (pySplitAux sep.data (s.data.length + 1) s.data []).map (fun l => ⟨l⟩)

/-- Python `text[n:]` on strings. -/
def pyDrop (s : String) (n : Nat) : String :=
  ⟨s.data.drop n⟩

/-- Embeds `BaseLLMProvider._clean_json_response`: strip the text, and if
it starts with a markdown fence take the part between the first pair of
fences, additionally dropping a leading `json`/`JSON` language tag and
re-stripping in that case. -/
def cleanJsonResponse (text : String) : String :=
  let t := Consensus.pyStripStr text
  if pyStartsWith t "```" then
    let parts := pySplit t "```"
    if 2 ≤ parts.length then
      let t1 := parts.getD 1 ""
      if pyStartsWith t1 "json" then Consensus.pyStripStr (pyDrop t1 4)
      else if pyStartsWith t1 "JSON" then Consensus.pyStripStr (pyDrop t1 4)
      else t1
    else t
  else t

/-- Embeds `BaseLLMProvider._parse_json_response`.  `loads` stands for
`json.loads`, returning `none` on a `JSONDecodeError`.  The `Except.error`
case embeds a raised `JSONParseError` (messages abbreviated): a non-dict
parse raises `Expected dict`, a dict with a non-string value raises
`All keys and values must be strings` (object keys produced by `json.loads`
are always strings, so the key half of that check cannot fire). -/
def parseJsonResponse (loads : String → Option JValue) (text : String) :
    Except String (List (String × String)) :=
  match loads (cleanJsonResponse text) with
  | none => Except.error "Failed to parse JSON"
  | some (JValue.obj kvs) =>
    if kvs.all (fun kv => kv.2.isStr) then
      Except.ok (kvs.map (fun kv => (kv.1, kv.2.strValue)))
    else
      Except.error "All keys and values must be strings"
  | some _ => Except.error "Expected dict"

end LLMBase

open Consensus LLMBase

/-- Dropping a satisfying run shortens or keeps the length. -/
theorem length_dropWhile_le_self {α : Type} (p : α → Bool) (l : List α) :
    (l.dropWhile p).length ≤ l.length := by
  induction l with
  | nil => simp
  | cons a l ih =>
    by_cases h : p a
    · simp only [List.dropWhile, h]
      exact ih.trans (by simp)
    · simp [List.dropWhile, h]

/-- Dropping a satisfying run twice is the same as dropping it once. -/
theorem dropWhile_dropWhile_eq {α : Type} (p : α → Bool) (l : List α) :
    (l.dropWhile p).dropWhile p = l.dropWhile p := by
  induction l with
  | nil => rfl
  | cons a l ih =>
    by_cases h : p a
    · simpa [List.dropWhile, h] using ih
    · simp [List.dropWhile, h]

/-- A list that survives `dropWhile` whole does so after removing any tail. -/
theorem dropWhile_eq_self_of_append {α : Type} (p : α → Bool) (m t : List α)
    (h : (m ++ t).dropWhile p = m ++ t) : m.dropWhile p = m := by
  cases m with
  | nil => rfl
  | cons a u =>
    have ha : p a = false := by
      by_cases hpa : p a
      · exfalso
        simp only [List.cons_append, List.dropWhile, hpa, List.append_eq] at h
        have hle := length_dropWhile_le_self p (u ++ t)
        rw [h] at hle
        simp at hle
      · simpa using hpa
    simp [List.dropWhile, ha]

/-- Reversed form of the `takeWhile`/`dropWhile` split, used for the right
trim: the trimmed-from-the-right list is an initial segment. -/
theorem reverse_trim_decomp {α : Type} (p : α → Bool) (m : List α) :
    m = ((m.reverse.dropWhile p).reverse) ++ (m.reverse.takeWhile p).reverse := by
  conv_lhs => rw [← m.reverse_reverse,
    ← List.takeWhile_append_dropWhile p m.reverse]
  rw [List.reverse_append]

/-- Stripping is idempotent on character lists. -/
theorem pyStrip_pyStrip (l : List Char) : pyStrip (pyStrip l) = pyStrip l := by
  have hmfix : (l.dropWhile pyIsSpace).dropWhile pyIsSpace = l.dropWhile pyIsSpace :=
    dropWhile_dropWhile_eq pyIsSpace l
  set m := l.dropWhile pyIsSpace with hm
  set m' := (m.reverse.dropWhile pyIsSpace).reverse with hm'
  have hdecomp : m = m' ++ (m.reverse.takeWhile pyIsSpace).reverse :=
    reverse_trim_decomp pyIsSpace m
  have hm'fix : m'.dropWhile pyIsSpace = m' := by
    apply dropWhile_eq_self_of_append pyIsSpace m' ((m.reverse.takeWhile pyIsSpace).reverse)
    rw [← hdecomp]
    exact hmfix
  have hrevfix : m'.reverse.dropWhile pyIsSpace = m'.reverse := by
    rw [hm', List.reverse_reverse]
    exact dropWhile_dropWhile_eq pyIsSpace m.reverse
  have h1 : pyStrip l = m' := rfl
  rw [h1]
  show ((m'.dropWhile pyIsSpace).reverse.dropWhile pyIsSpace).reverse = m'
  rw [hm'fix, hrevfix, List.reverse_reverse]

/-- Stripping only removes characters at the two ends: the result is a
contiguous slice of the input. -/
theorem pyStrip_slice (l : List Char) :
    ∃ pre post : List Char, l = pre ++ pyStrip l ++ post := by
  refine ⟨l.takeWhile pyIsSpace,
    ((l.dropWhile pyIsSpace).reverse.takeWhile pyIsSpace).reverse, ?_⟩
  conv_lhs => rw [← List.takeWhile_append_dropWhile pyIsSpace l]
  rw [List.append_assoc]
  congr 1
  exact reverse_trim_decomp pyIsSpace (l.dropWhile pyIsSpace)

/-- A list of whitespace characters strips to nothing. -/
theorem pyStrip_of_all_space {l : List Char} (h : l.all pyIsSpace = true) :
    pyStrip l = [] := by
  have hdw : l.dropWhile pyIsSpace = [] := by
    induction l with
    | nil => rfl
    | cons a u ih =>
      simp only [List.all_cons, Bool.and_eq_true] at h
      simp [List.dropWhile, h.1, ih h.2]
  simp [pyStrip, hdw]

/-- C9: sentence normalization (`_normalize_sentence`, a bare `strip()`) is
idempotent, trims `"  A "` to `"A"`, and is trim-only: the normalized text
is a contiguous slice of the input, so no case-folding or other rewriting
happens. -/
theorem c9_normalize_idempotent_trim_only :
    (∀ s : String, normalizeSentence (normalizeSentence s) = normalizeSentence s) ∧
    normalizeSentence "  A " = "A" ∧
    (∀ s : String, ∃ pre post : List Char,
      s.data = pre ++ (normalizeSentence s).data ++ post) := by
  refine ⟨fun s => ?_, by decide, fun s => ?_⟩
  · show (⟨pyStrip (pyStrip s.data)⟩ : String) = ⟨pyStrip s.data⟩
    rw [pyStrip_pyStrip]
  · exact pyStrip_slice s.data

/-- C5: a blank article (empty or whitespace-only) makes `analyze_article`
return `success == False` with no sentences, and no provider call is
dispatched. -/
theorem c5_blank_article_no_calls (text : String) (calls : List (String × AnalyzeOutcome))
    (h : text.data.all pyIsSpace = true) :
    (analyzeArticle text calls).1.success = false ∧
    (analyzeArticle text calls).1.sentences = [] ∧
    (analyzeArticle text calls).2 = [] := by
  have hblank : isBlank text = true := by
    simp only [isBlank, Bool.or_eq_true, List.isEmpty_iff]
    exact Or.inr (pyStrip_of_all_space h)
  simp [analyzeArticle, hblank]

/-- Witness for C5 at the concrete whitespace article `"  \t "` with two
providers configured. -/
theorem c5_blank_article_no_calls_witness :
    (analyzeArticle "  \t " [("gemini", AnalyzeOutcome.returnsDict [("A", "r")]),
        ("mistral", AnalyzeOutcome.raises "boom")]).1.success = false ∧
    (analyzeArticle "  \t " [("gemini", AnalyzeOutcome.returnsDict [("A", "r")]),
        ("mistral", AnalyzeOutcome.raises "boom")]).1.sentences = [] ∧
    (analyzeArticle "  \t " [("gemini", AnalyzeOutcome.returnsDict [("A", "r")]),
        ("mistral", AnalyzeOutcome.raises "boom")]).2 = [] :=
  c5_blank_article_no_calls "  \t " _ (by decide)

/-- Membership in a stable descending insertion. -/
theorem mem_insertDesc (x a : ConsensusSentence) (l : List ConsensusSentence) :
    a ∈ insertDesc x l ↔ a = x ∨ a ∈ l := by
  induction l with
  | nil => simp [insertDesc]
  | cons y ys ih =>
    by_cases h : y.consensus_score ≤ x.consensus_score
    · simp [insertDesc, h]
    · simp only [insertDesc, if_neg h, List.mem_cons, ih]
      tauto

/-- The descending sort permutes the list, so it preserves membership. -/
theorem mem_sortByScoreDesc (a : ConsensusSentence) (l : List ConsensusSentence) :
    a ∈ sortByScoreDesc l ↔ a ∈ l := by
  induction l with
  | nil => simp [sortByScoreDesc]
  | cons y ys ih =>
    show a ∈ insertDesc y (sortByScoreDesc ys) ↔ _
    rw [mem_insertDesc]
    simp [ih]

/-- Inserting into a score-descending list keeps it score-descending. -/
theorem insertDesc_sorted (x : ConsensusSentence) (l : List ConsensusSentence)
    (h : List.Chain' (fun a b => b.consensus_score ≤ a.consensus_score) l) :
    List.Chain' (fun a b => b.consensus_score ≤ a.consensus_score) (insertDesc x l) := by
  induction l with
  | nil => simp [insertDesc]
  | cons y ys ih =>
    rw [List.chain'_cons'] at h
    by_cases hc : y.consensus_score ≤ x.consensus_score
    · simp only [insertDesc, if_pos hc]
      exact List.chain'_cons.mpr ⟨hc, List.chain'_cons'.mpr h⟩
    · simp only [insertDesc, if_neg hc]
      rw [List.chain'_cons']
      refine ⟨?_, ih h.2⟩
      intro z hz
      cases ys with
      | nil =>
        simp [insertDesc] at hz
        subst hz
        omega
      | cons w ws =>
        by_cases hw : w.consensus_score ≤ x.consensus_score
        · simp only [insertDesc, if_pos hw, List.head?_cons, Option.mem_some_iff] at hz
          subst hz
          omega
        · simp only [insertDesc, if_neg hw, List.head?_cons, Option.mem_some_iff] at hz
          subst hz
          exact h.1 w (by simp)

/-- The descending sort produces a score-descending list. -/
theorem sortByScoreDesc_sorted (l : List ConsensusSentence) :
    List.Chain' (fun a b => b.consensus_score ≤ a.consensus_score) (sortByScoreDesc l) := by
  induction l with
  | nil => simp [sortByScoreDesc]
  | cons y ys ih => exact insertDesc_sorted y _ ih

/-- The sentence list of any consensus computation is score-descending. -/
theorem calculateConsensus_sentences_sorted (n : Nat) (results : List ProviderResult) :
    List.Chain' (fun a b => b.consensus_score ≤ a.consensus_score)
      (calculateConsensus n results).sentences := by
  simp only [calculateConsensus]
  split
  · simp
  · exact sortByScoreDesc_sorted _

/-- C4: for every input, the returned `sentences` list is sorted
non-increasing in `consensus_score`: each adjacent pair has the earlier
score at least the later score. -/
theorem c4_sentences_sorted_descending (text : String)
    (calls : List (String × AnalyzeOutcome)) :
    List.Chain' (fun a b => b.consensus_score ≤ a.consensus_score)
      (analyzeArticle text calls).1.sentences := by
  simp only [analyzeArticle]
  split
  · simp
  · exact calculateConsensus_sentences_sorted _ _

/-- Every returned sentence is the image of a sentence-map entry under
`mkConsensusSentence` at the successful-provider count. -/
theorem mem_sentences_shape (n : Nat) (results : List ProviderResult)
    (s : ConsensusSentence) (hs : s ∈ (calculateConsensus n results).sentences) :
    ∃ e ∈ buildSentenceMap (results.filter fun r => r.success),
      s = mkConsensusSentence (results.filter fun r => r.success).length e := by
  simp only [calculateConsensus] at hs
  split at hs
  · simp at hs
  · rw [show (⟨true, none, n, (results.filter fun r => r.success).map (fun r => r.provider),
        (results.filter fun r => !r.success).map (fun r => r.provider),
        sortByScoreDesc (((buildSentenceMap (results.filter fun r => r.success))).map
          (mkConsensusSentence (results.filter fun r => r.success).length)),
        (sortByScoreDesc (((buildSentenceMap (results.filter fun r => r.success))).map
          (mkConsensusSentence (results.filter fun r => r.success).length))).length⟩ :
        ConsensusResult).sentences =
        sortByScoreDesc (((buildSentenceMap (results.filter fun r => r.success))).map
          (mkConsensusSentence (results.filter fun r => r.success).length)) from rfl] at hs
    rw [mem_sortByScoreDesc] at hs
    simp only [List.mem_map] at hs
    obtain ⟨e, he, rfl⟩ := hs
    exact ⟨e, he, rfl⟩

/-- Every returned sentence's level is the `consensusLevel` of its score at
the successful count, and its score is the length of `selected_by`. -/
theorem mem_sentences_level (n : Nat) (results : List ProviderResult)
    (s : ConsensusSentence) (hs : s ∈ (calculateConsensus n results).sentences) :
    s.consensus_level =
      consensusLevel (results.filter fun r => r.success).length s.consensus_score ∧
    s.consensus_score = s.selected_by.length := by
  obtain ⟨e, _, rfl⟩ := mem_sentences_shape n results s hs
  exact ⟨rfl, rfl⟩

/-- The reported successful-provider list counts exactly the successful
results, in both the success and the all-failed branch. -/
theorem successful_providers_length (n : Nat) (results : List ProviderResult) :
    (calculateConsensus n results).successful_providers.length =
      (results.filter fun r => r.success).length := by
  simp only [calculateConsensus]
  split
  · rename_i h
    rw [List.isEmpty_iff] at h
    simp [h]
  · simp

/-- Case analysis of the consensus-level tiers, matching the three branches
of the source. -/
theorem consensusLevel_cases (total score : Nat) :
    (total = 1 → consensusLevel total score = "high") ∧
    (total = 2 → ((consensusLevel total score = "high" ↔ score = 2) ∧
      consensusLevel total score ≠ "medium")) ∧
    (3 ≤ total → ((consensusLevel total score = "high" ↔ 3 ≤ score) ∧
      (consensusLevel total score = "medium" ↔ score = 2) ∧
      (consensusLevel total score = "low" ↔ (¬ 3 ≤ score ∧ score ≠ 2)))) := by
  unfold consensusLevel
  refine ⟨fun h1 => by simp [h1], fun h2 => ?_, fun h3 => ?_⟩
  · subst h2
    by_cases hs2 : score = 2 <;> simp [hs2]
  · have hne1 : total ≠ 1 := by omega
    have hne2 : total ≠ 2 := by omega
    by_cases hs3 : 3 ≤ score
    · have : score ≠ 2 := by omega
      simp [hne1, hne2, hs3, this]
    · by_cases hs2 : score = 2 <;> simp [hne1, hne2, hs3, hs2]

/-- C1: each returned sentence's `consensus_level` is determined by its
`consensus_score` and the number of providers whose calls succeeded:
one success means always `high`; two successes mean `high` iff score 2 and
never `medium`; three or more successes mean `high` iff score at least 3,
`medium` iff score 2, and `low` otherwise. -/
theorem c1_consensus_level_tiers (text : String)
    (calls : List (String × AnalyzeOutcome)) (s : ConsensusSentence)
    (hs : s ∈ (analyzeArticle text calls).1.sentences) :
    ((analyzeArticle text calls).1.successful_providers.length = 1 →
      s.consensus_level = "high") ∧
    ((analyzeArticle text calls).1.successful_providers.length = 2 →
      ((s.consensus_level = "high" ↔ s.consensus_score = 2) ∧
        s.consensus_level ≠ "medium")) ∧
    (3 ≤ (analyzeArticle text calls).1.successful_providers.length →
      ((s.consensus_level = "high" ↔ 3 ≤ s.consensus_score) ∧
        (s.consensus_level = "medium" ↔ s.consensus_score = 2) ∧
        (s.consensus_level = "low" ↔ (¬ 3 ≤ s.consensus_score ∧ s.consensus_score ≠ 2)))) := by
  by_cases hb : isBlank text
  · exfalso
    simp [analyzeArticle, hb] at hs
  · have harts : analyzeArticle text calls =
        (calculateConsensus calls.length
          (calls.map (fun c => analyzeWithProvider c.1 c.2)), calls) := by
      simp [analyzeArticle, hb]
    rw [harts] at hs ⊢
    obtain ⟨hlev, _⟩ := mem_sentences_level _ _ _ hs
    rw [show ((calculateConsensus calls.length
        (calls.map (fun c => analyzeWithProvider c.1 c.2)), calls)).1 =
        calculateConsensus calls.length
          (calls.map (fun c => analyzeWithProvider c.1 c.2)) from rfl,
      successful_providers_length, hlev]
    exact consensusLevel_cases _ _

/-- Witness for C1 at a concrete single-provider run. -/
theorem c1_consensus_level_tiers_witness :
    ((analyzeArticle "t" [("gemini", AnalyzeOutcome.returnsDict [("S1", "r1")])]).1.successful_providers.length = 1 →
      (⟨"S1", 1, "high", ["gemini"], [("gemini", "r1")]⟩ : ConsensusSentence).consensus_level = "high") ∧
    ((analyzeArticle "t" [("gemini", AnalyzeOutcome.returnsDict [("S1", "r1")])]).1.successful_providers.length = 2 →
      (((⟨"S1", 1, "high", ["gemini"], [("gemini", "r1")]⟩ : ConsensusSentence).consensus_level = "high" ↔
          (⟨"S1", 1, "high", ["gemini"], [("gemini", "r1")]⟩ : ConsensusSentence).consensus_score = 2) ∧
        (⟨"S1", 1, "high", ["gemini"], [("gemini", "r1")]⟩ : ConsensusSentence).consensus_level ≠ "medium")) ∧
    (3 ≤ (analyzeArticle "t" [("gemini", AnalyzeOutcome.returnsDict [("S1", "r1")])]).1.successful_providers.length →
      (((⟨"S1", 1, "high", ["gemini"], [("gemini", "r1")]⟩ : ConsensusSentence).consensus_level = "high" ↔
          3 ≤ (⟨"S1", 1, "high", ["gemini"], [("gemini", "r1")]⟩ : ConsensusSentence).consensus_score) ∧
        ((⟨"S1", 1, "high", ["gemini"], [("gemini", "r1")]⟩ : ConsensusSentence).consensus_level = "medium" ↔
          (⟨"S1", 1, "high", ["gemini"], [("gemini", "r1")]⟩ : ConsensusSentence).consensus_score = 2) ∧
        ((⟨"S1", 1, "high", ["gemini"], [("gemini", "r1")]⟩ : ConsensusSentence).consensus_level = "low" ↔
          (¬ 3 ≤ (⟨"S1", 1, "high", ["gemini"], [("gemini", "r1")]⟩ : ConsensusSentence).consensus_score ∧
            (⟨"S1", 1, "high", ["gemini"], [("gemini", "r1")]⟩ : ConsensusSentence).consensus_score ≠ 2)))) :=
  c1_consensus_level_tiers "t" [("gemini", AnalyzeOutcome.returnsDict [("S1", "r1")])]
    ⟨"S1", 1, "high", ["gemini"], [("gemini", "r1")]⟩ (by decide)

/-- C2: the two-provider scenario with gemini returning two sentences and
mistral agreeing on the first: both providers are reported successful, the
agreed sentence comes first with score 2 and level `high` and merged
reasons, the single-provider sentence follows with score 1 and level `low`. -/
theorem c2_gemini_mistral_scenario :
    (analyzeArticle "article body"
        [("gemini", AnalyzeOutcome.returnsDict [("S1", "r1"), ("S2", "r2")]),
         ("mistral", AnalyzeOutcome.returnsDict [("S1", "r3")])]).1.successful_providers =
      ["gemini", "mistral"] ∧
    (analyzeArticle "article body"
        [("gemini", AnalyzeOutcome.returnsDict [("S1", "r1"), ("S2", "r2")]),
         ("mistral", AnalyzeOutcome.returnsDict [("S1", "r3")])]).1.sentences =
      [⟨"S1", 2, "high", ["gemini", "mistral"], [("gemini", "r1"), ("mistral", "r3")]⟩,
       ⟨"S2", 1, "low", ["gemini"], [("gemini", "r2")]⟩] := by
  decide

/-- A collected result keeps the provider name of its call. -/
theorem analyzeWithProvider_provider (n : String) (o : AnalyzeOutcome) :
    (analyzeWithProvider n o).provider = n := by
  cases o <;> rfl

/-- A collected result's success flag says whether the call raised. -/
theorem analyzeWithProvider_success (n : String) (o : AnalyzeOutcome) :
    (analyzeWithProvider n o).success = outcomeSucceeds o := by
  cases o <;> rfl

/-- Filtering a mapped list is mapping the filtered list. -/
theorem map_filter_eq {α β : Type} (f : α → β) (q : β → Bool) (l : List α) :
    (l.map f).filter q = (l.filter fun a => q (f a)).map f := by
  induction l with
  | nil => rfl
  | cons a l ih =>
    by_cases h : q (f a) <;> simp [List.filter_cons, h, ih]

/-- In a list with pairwise-distinct first components, two members with the
same first component are the same member. -/
theorem eq_of_mem_map_fst_nodup {α β : Type} {l : List (α × β)}
    (hnd : (l.map Prod.fst).Nodup) {a b : α × β}
    (ha : a ∈ l) (hb : b ∈ l) (hfst : a.1 = b.1) : a = b := by
  induction l with
  | nil => cases ha
  | cons e rest ih =>
    simp only [List.map_cons, List.nodup_cons] at hnd
    rcases List.mem_cons.mp ha with rfl | ha' <;>
      rcases List.mem_cons.mp hb with rfl | hb'
    · rfl
    · exact absurd (hfst ▸ List.mem_map_of_mem Prod.fst hb') hnd.1
    · exact absurd (hfst ▸ List.mem_map_of_mem Prod.fst ha') hnd.1
    · exact ih hnd.2 ha' hb'

/-- Assigning a fresh key into a reasons dict appends that key. -/
theorem setReason_keys (rs : List (String × String)) (p r : String)
    (h : ¬ p ∈ rs.map Prod.fst) :
    (setReason rs p r).map Prod.fst = rs.map Prod.fst ++ [p] := by
  induction rs with
  | nil => simp [setReason]
  | cons e rest ih =>
    have hne : e.1 ≠ p := by
      intro hh
      exact h (by simp [hh])
    have hrest : ¬ p ∈ rest.map Prod.fst := by
      intro hh
      exact h (by simp [hh])
    simp [setReason, hne, ih hrest]

/-- Every entry of a bumped map is an untouched old entry, the bumped form
of an old entry with the accessed key, or the fresh entry for that key. -/
theorem mem_bumpEntry_cases (m : List (String × SentenceEntry)) (k p r : String)
    (e : String × SentenceEntry) (he : e ∈ bumpEntry m k p r) :
    e ∈ m ∨
    (∃ e0, e0 ∈ m ∧ e0.1 = k ∧
      e = (k, ⟨e0.2.selected_by ++ [p], setReason e0.2.reasons p r⟩)) ∨
    e = (k, ⟨[p], [(p, r)]⟩) := by
  induction m with
  | nil =>
    simp only [bumpEntry, List.mem_singleton] at he
    exact Or.inr (Or.inr he)
  | cons e0 rest ih =>
    by_cases h0 : e0.1 = k
    · simp only [bumpEntry, if_pos h0, List.mem_cons] at he
      rcases he with rfl | he'
      · exact Or.inr (Or.inl ⟨e0, List.mem_cons_self e0 rest, h0, rfl⟩)
      · exact Or.inl (List.mem_cons_of_mem e0 he')
    · simp only [bumpEntry, if_neg h0, List.mem_cons] at he
      rcases he with rfl | he'
      · exact Or.inl (List.mem_cons_self e rest)
      · rcases ih he' with hm | ⟨e1, he1, hk1, heq⟩ | hfresh
        · exact Or.inl (List.mem_cons_of_mem e0 hm)
        · exact Or.inr (Or.inl ⟨e1, List.mem_cons_of_mem e0 he1, hk1, heq⟩)
        · exact Or.inr (Or.inr hfresh)

/-- Bumping preserves a predicate on all appended providers. -/
theorem bumpEntry_selected_by_pred (P : String → Prop)
    (m : List (String × SentenceEntry)) (k p r : String)
    (hm : ∀ e ∈ m, ∀ q ∈ e.2.selected_by, P q) (hp : P p) :
    ∀ e ∈ bumpEntry m k p r, ∀ q ∈ e.2.selected_by, P q := by
  intro e he q hq
  rcases mem_bumpEntry_cases m k p r e he with hmem | ⟨e0, he0, _, rfl⟩ | rfl
  · exact hm e hmem q hq
  · rcases List.mem_append.mp hq with hq' | hq'
    · exact hm e0 he0 q hq'
    · rw [List.mem_singleton.mp hq']
      exact hp
  · rw [List.mem_singleton.mp hq]
    exact hp

/-- Folding one provider's sentences preserves a provider predicate on all
entries, assuming it holds of the provider whenever anything is folded. -/
theorem foldSentences_selected_by_pred (P : String → Prop) (p : String)
    (l : List (String × String)) :
    ∀ m, (∀ e ∈ m, ∀ q ∈ e.2.selected_by, P q) → (l = [] ∨ P p) →
    ∀ e ∈ l.foldl (addSentence p) m, ∀ q ∈ e.2.selected_by, P q := by
  induction l with
  | nil => intro m hm _; exact hm
  | cons kv rest ih =>
    intro m hm hp
    have hp' : P p := by
      rcases hp with h | h
      · cases h
      · exact h
    exact ih (addSentence p m kv)
      (bumpEntry_selected_by_pred P m (normalizeSentence kv.1) p kv.2 hm hp')
      (Or.inr hp')

/-- Folding providers into the sentence map only records providers that
contributed a non-empty sentence dict. -/
theorem foldProviders_selected_by_pred (P : String → Prop)
    (rs : List ProviderResult) :
    ∀ m, (∀ e ∈ m, ∀ q ∈ e.2.selected_by, P q) →
    (∀ r ∈ rs, r.sentences ≠ [] → P r.provider) →
    ∀ e ∈ rs.foldl addProvider m, ∀ q ∈ e.2.selected_by, P q := by
  induction rs with
  | nil => intro m hm _; exact hm
  | cons r rest ih =>
    intro m hm hrs
    refine ih (addProvider m r) ?_ (fun r' hr' => hrs r' (List.mem_cons_of_mem r hr'))
    refine foldSentences_selected_by_pred P r.provider r.sentences m hm ?_
    by_cases hse : r.sentences = []
    · exact Or.inl hse
    · exact Or.inr (hrs r (List.mem_cons_self r rest) hse)

/-- Every provider in any `selected_by` of the returned sentences belongs
to a successful result with a non-empty sentence dict. -/
theorem selected_by_from_results (n : Nat) (results : List ProviderResult)
    (s : ConsensusSentence) (hs : s ∈ (calculateConsensus n results).sentences)
    (q : String) (hq : q ∈ s.selected_by) :
    ∃ r, r ∈ results.filter (fun r => r.success) ∧ r.provider = q ∧
      r.sentences ≠ [] := by
  obtain ⟨e, he, rfl⟩ := mem_sentences_shape n results s hs
  refine foldProviders_selected_by_pred
    (fun q => ∃ r, r ∈ results.filter (fun r => r.success) ∧ r.provider = q ∧ r.sentences ≠ [])
    (results.filter (fun r => r.success)) [] (by simp)
    (fun r hr hne => ⟨r, hr, rfl, hne⟩) e he _ hq

/-- Growing the processed set preserves the entry invariant. -/
theorem entryInv_mono (d1 d2 : List String) (h : ∀ q ∈ d1, q ∈ d2)
    (e : String × SentenceEntry) (he : EntryInv d1 e) : EntryInv d2 e :=
  ⟨he.1, he.2.1, fun q hq => h q (he.2.2 q hq)⟩

/-- Folding the sentences of one fresh provider with pairwise-distinct
normalized sentences preserves the entry invariant. -/
theorem foldSentences_entryInv (p : String) (done : List String)
    (l : List (String × String)) :
    ∀ m, (l.map (fun kv => normalizeSentence kv.1)).Nodup →
    (∀ e ∈ m, EntryInv (p :: done) e ∧
      (p ∈ e.2.selected_by → ¬ e.1 ∈ l.map (fun kv => normalizeSentence kv.1))) →
    ∀ e ∈ l.foldl (addSentence p) m, EntryInv (p :: done) e := by
  induction l with
  | nil => intro m _ hm e he; exact (hm e he).1
  | cons kv rest ih =>
    intro m hnd hm e he
    simp only [List.foldl_cons] at he
    simp only [List.map_cons, List.nodup_cons] at hnd
    refine ih (addSentence p m kv) hnd.2 ?_ e he
    intro e' he'
    rcases mem_bumpEntry_cases m (normalizeSentence kv.1) p kv.2 e' he' with
      hmem | ⟨e0, he0, hk0, rfl⟩ | rfl
    · have h' := hm e' hmem
      refine ⟨h'.1, fun hp hmem2 => h'.2 hp ?_⟩
      simp only [List.map_cons, List.mem_cons]
      exact Or.inr hmem2
    · have h0 := hm e0 he0
      have hpnot : ¬ p ∈ e0.2.selected_by := by
        intro hp
        refine h0.2 hp ?_
        rw [hk0]
        simp
      obtain ⟨hkeys0, hnd0, hdone0⟩ := h0.1
      constructor
      · refine ⟨?_, ?_, ?_⟩
        · show (setReason e0.2.reasons p kv.2).map Prod.fst = e0.2.selected_by ++ [p]
          rw [setReason_keys e0.2.reasons p kv.2 (by rw [hkeys0]; exact hpnot), hkeys0]
        · exact hnd0.append (List.nodup_singleton p)
            (by intro q hq hq'; rw [List.mem_singleton.mp hq'] at hq; exact hpnot hq)
        · intro q hq
          rcases List.mem_append.mp hq with hq' | hq'
          · exact hdone0 q hq'
          · rw [List.mem_singleton.mp hq']
            exact List.mem_cons_self p done
      · intro _
        simpa using hnd.1
    · constructor
      · refine ⟨by simp, by simp, ?_⟩
        intro q hq
        rw [List.mem_singleton.mp hq]
        exact List.mem_cons_self p done
      · intro _
        simpa using hnd.1

/-- Folding fresh providers with pairwise-distinct normalized sentences
keeps the entry invariant over the processed provider set. -/
theorem foldProviders_entryInv (rs : List ProviderResult) :
    ∀ m done, ((rs.map fun r => r.provider)).Nodup →
    (∀ r ∈ rs, ¬ r.provider ∈ done) →
    (∀ r ∈ rs, ((r.sentences.map fun kv => normalizeSentence kv.1)).Nodup) →
    (∀ e ∈ m, EntryInv done e) →
    ∀ e ∈ rs.foldl addProvider m, EntryInv ((rs.map fun r => r.provider) ++ done) e := by
  induction rs with
  | nil =>
    intro m done _ _ _ hm e he
    simpa using hm e he
  | cons r rest ih =>
    intro m done hnd hdone hkeys hm e he
    simp only [List.foldl_cons] at he
    simp only [List.map_cons, List.nodup_cons] at hnd
    have hinner : ∀ e ∈ addProvider m r, EntryInv (r.provider :: done) e := by
      refine foldSentences_entryInv r.provider done r.sentences m
        (hkeys r (List.mem_cons_self r rest)) ?_
      intro e' he'
      have h' := hm e' he'
      refine ⟨entryInv_mono done (r.provider :: done)
        (fun q hq => List.mem_cons_of_mem _ hq) e' h', ?_⟩
      intro hp
      exact absurd (h'.2.2 r.provider hp) (hdone r (List.mem_cons_self r rest))
    have hdone' : ∀ r' ∈ rest, ¬ r'.provider ∈ r.provider :: done := by
      intro r' hr' hmem
      rcases List.mem_cons.mp hmem with heq | hmem'
      · exact hnd.1 (heq ▸ List.mem_map_of_mem (fun r => r.provider) hr')
      · exact hdone r' (List.mem_cons_of_mem r hr') hmem'
    have hkeys' : ∀ r' ∈ rest, ((r'.sentences.map fun kv => normalizeSentence kv.1)).Nodup :=
      fun r' hr' => hkeys r' (List.mem_cons_of_mem r hr')
    have hres := ih (addProvider m r) (r.provider :: done) hnd.2 hdone' hkeys' hinner e he
    refine entryInv_mono _ _ ?_ e hres
    intro q hq
    simp only [List.map_cons, List.mem_append, List.mem_cons] at hq ⊢
    tauto

/-- In the sentence map of providers with distinct names and per-provider
distinct normalized sentences, the reason keys match `selected_by` exactly
and no provider repeats. -/
theorem buildSentenceMap_reasons_keys (rs : List ProviderResult)
    (hnd : ((rs.map fun r => r.provider)).Nodup)
    (hkeys : ∀ r ∈ rs, ((r.sentences.map fun kv => normalizeSentence kv.1)).Nodup) :
    ∀ e ∈ buildSentenceMap rs,
      e.2.reasons.map Prod.fst = e.2.selected_by ∧ e.2.selected_by.Nodup := by
  intro e he
  have h := foldProviders_entryInv rs [] [] hnd (by simp) hkeys (by simp) e he
  exact ⟨h.1, h.2.1⟩

/-- Reducing `analyze_article` on a non-blank article. -/
theorem analyzeArticle_not_blank (text : String)
    (calls : List (String × AnalyzeOutcome)) (hb : isBlank text = false) :
    analyzeArticle text calls =
      (calculateConsensus calls.length
        (calls.map fun c => analyzeWithProvider c.1 c.2), calls) := by
  simp [analyzeArticle, hb]

/-- The providers of the collected results are the call names. -/
theorem results_map_provider (calls : List (String × AnalyzeOutcome)) :
    ((calls.map fun c => analyzeWithProvider c.1 c.2).map fun r => r.provider) =
      calls.map Prod.fst := by
  rw [List.map_map]
  exact List.map_congr_left fun c _ => analyzeWithProvider_provider c.1 c.2

/-- C3 counterexample: when one provider returns two distinct sentences
that trim-normalize to the same text, the merged sentence has
`consensus_score == 2` (it counts `selected_by`, where the provider now
appears twice) but only one entry in `reasons` (the second assignment
overwrote the first), so `consensus_score == len(reasons)` fails. -/
theorem c3_counterexample_duplicate_normalized :
    ∃ s ∈ (analyzeArticle "t"
        [("p", AnalyzeOutcome.returnsDict [("A", "r1"), (" A", "r2")])]).1.sentences,
      s.consensus_score = 2 ∧ s.selected_by.length = 2 ∧ s.reasons.length = 1 := by
  decide

/-- C3 amended: `consensus_score == len(selected_by)` holds for every run;
`consensus_score == len(reasons)` additionally holds provided the call
names are pairwise distinct (they are dict keys in the source) and no
single provider's dict contains two sentences with the same
trim-normalized text. -/
theorem c3_amended_score_selected_reasons :
    (∀ (text : String) (calls : List (String × AnalyzeOutcome)),
      ∀ s ∈ (analyzeArticle text calls).1.sentences,
        s.consensus_score = s.selected_by.length) ∧
    (∀ (text : String) (calls : List (String × AnalyzeOutcome)),
      ((calls.map Prod.fst)).Nodup → (∀ c ∈ calls, NormKeysNodup c.2) →
      ∀ s ∈ (analyzeArticle text calls).1.sentences,
        s.consensus_score = s.selected_by.length ∧
        s.consensus_score = s.reasons.length) := by
  constructor
  · intro text calls s hs
    cases hb : isBlank text with
    | true => simp [analyzeArticle, hb] at hs
    | false =>
      rw [analyzeArticle_not_blank text calls hb] at hs
      exact (mem_sentences_level _ _ _ hs).2
  · intro text calls hndc hkc s hs
    cases hb : isBlank text with
    | true => simp [analyzeArticle, hb] at hs
    | false =>
      rw [analyzeArticle_not_blank text calls hb] at hs
      have hnd_res : (((calls.map fun c => analyzeWithProvider c.1 c.2).map
          fun r => r.provider)).Nodup := by
        rw [results_map_provider]
        exact hndc
      have hnd_succ : ((((calls.map fun c => analyzeWithProvider c.1 c.2).filter
          (fun r => r.success)).map fun r => r.provider)).Nodup :=
        List.Nodup.sublist
          (List.Sublist.map _ (List.filter_sublist _)) hnd_res
      have hkeys_succ : ∀ r ∈ (calls.map fun c => analyzeWithProvider c.1 c.2).filter
          (fun r => r.success),
          ((r.sentences.map fun kv => normalizeSentence kv.1)).Nodup := by
        intro r hr
        obtain ⟨c, hc, rfl⟩ := List.mem_map.mp (List.mem_of_mem_filter hr)
        obtain ⟨name, o⟩ := c
        cases o with
        | raises msg => simp [analyzeWithProvider]
        | returnsDict d =>
          simpa [analyzeWithProvider, NormKeysNodup] using hkc (name, .returnsDict d) hc
        | returnsNonDict => simp [analyzeWithProvider]
      obtain ⟨e, he, rfl⟩ := mem_sentences_shape _ _ _ hs
      have hrk := buildSentenceMap_reasons_keys _ hnd_succ hkeys_succ e he
      have hlen := congrArg List.length hrk.1
      rw [List.length_map] at hlen
      exact ⟨rfl, hlen.symm⟩

/-- Witness for the amended C3 at a concrete one-provider run. -/
theorem c3_amended_score_selected_reasons_witness :
    (⟨"A", 1, "high", ["p"], [("p", "r1")]⟩ : ConsensusSentence).consensus_score =
      (⟨"A", 1, "high", ["p"], [("p", "r1")]⟩ : ConsensusSentence).selected_by.length ∧
    (⟨"A", 1, "high", ["p"], [("p", "r1")]⟩ : ConsensusSentence).consensus_score =
      (⟨"A", 1, "high", ["p"], [("p", "r1")]⟩ : ConsensusSentence).reasons.length :=
  c3_amended_score_selected_reasons.2 "t"
    [("p", AnalyzeOutcome.returnsDict [("A", "r1")])]
    (by decide) (by decide)
    ⟨"A", 1, "high", ["p"], [("p", "r1")]⟩ (by decide)

/-- The successful results of a run are the collected forms of the calls
whose behaviour did not raise. -/
theorem results_filter_success (calls : List (String × AnalyzeOutcome)) :
    (calls.map fun c => analyzeWithProvider c.1 c.2).filter (fun r => r.success) =
      (calls.filter fun c => outcomeSucceeds c.2).map
        (fun c => analyzeWithProvider c.1 c.2) := by
  rw [map_filter_eq]
  congr 1
  refine List.filter_congr ?_
  intro c _
  exact analyzeWithProvider_success c.1 c.2

/-- The failed results of a run are the collected forms of the calls whose
behaviour raised. -/
theorem results_filter_failure (calls : List (String × AnalyzeOutcome)) :
    (calls.map fun c => analyzeWithProvider c.1 c.2).filter (fun r => !r.success) =
      (calls.filter fun c => !outcomeSucceeds c.2).map
        (fun c => analyzeWithProvider c.1 c.2) := by
  rw [map_filter_eq]
  congr 1
  refine List.filter_congr ?_
  intro c _
  rw [analyzeWithProvider_success c.1 c.2]

/-- With at least one non-raising call, the consensus computation reports
exactly the non-raising call names as successful, the raising call names as
failed, and overall success. -/
theorem calculateConsensus_fields (n : Nat) (calls : List (String × AnalyzeOutcome))
    (hne : ∃ c ∈ calls, outcomeSucceeds c.2 = true) :
    (calculateConsensus n
        (calls.map fun c => analyzeWithProvider c.1 c.2)).successful_providers =
      (calls.filter fun c => outcomeSucceeds c.2).map Prod.fst ∧
    (calculateConsensus n
        (calls.map fun c => analyzeWithProvider c.1 c.2)).failed_providers =
      (calls.filter fun c => !outcomeSucceeds c.2).map Prod.fst ∧
    (calculateConsensus n
        (calls.map fun c => analyzeWithProvider c.1 c.2)).success = true := by
  obtain ⟨c0, hc0, hc0s⟩ := hne
  have hne' : ((calls.map fun c => analyzeWithProvider c.1 c.2).filter
      (fun r => r.success)).isEmpty = false := by
    rw [results_filter_success]
    have : c0 ∈ calls.filter fun c => outcomeSucceeds c.2 :=
      List.mem_filter.mpr ⟨hc0, hc0s⟩
    cases hh : ((calls.filter fun c => outcomeSucceeds c.2).map
        (fun c => analyzeWithProvider c.1 c.2)).isEmpty
    · rfl
    · rw [List.isEmpty_iff] at hh
      rw [List.map_eq_nil_iff] at hh
      rw [hh] at this
      cases this
  simp only [calculateConsensus, hne', Bool.false_eq_true, if_false]
  refine ⟨?_, ?_, trivial⟩
  · rw [results_filter_success, List.map_map]
    exact List.map_congr_left fun c _ => analyzeWithProvider_provider c.1 c.2
  · rw [results_filter_failure, List.map_map]
    exact List.map_congr_left fun c _ => analyzeWithProvider_provider c.1 c.2

/-- C7 counterexample: in a run where every dispatched call raises (here a
single gemini call), the aggregator returns the overall-failure dict
`{'success': False, 'error': 'All providers failed', 'sentences': []}`,
which has no `failed_providers` key at all (embedded as the empty list), so
the raising provider does not appear in `failed_providers` as the claim
asserts of every raising call. -/
theorem c7_counterexample_all_raise :
    (analyzeArticle "t" [("gemini", AnalyzeOutcome.raises "boom")]).1.success = false ∧
    (analyzeArticle "t" [("gemini", AnalyzeOutcome.raises "boom")]).1.failed_providers = [] ∧
    ¬ "gemini" ∈
      (analyzeArticle "t" [("gemini", AnalyzeOutcome.raises "boom")]).1.failed_providers := by
  decide

/-- C7 amended: a dispatched call that raises is converted into a failure
outcome (success flag false, the message as error, empty sentence dict)
instead of aborting the batch.  Provided some other dispatched call
succeeds, the raising provider appears in `failed_providers` and in no
sentence's `selected_by`, and all dispatched calls are still collected
into the successful/failed split; when instead every dispatched call
raises, the run returns the overall-failure dict (`success == False`,
error `All providers failed`, no sentences), which carries no
`failed_providers` entry. -/
theorem c7_raising_call_converted (text : String)
    (calls : List (String × AnalyzeOutcome)) (p msg : String)
    (hmem : (p, AnalyzeOutcome.raises msg) ∈ calls)
    (hnd : ((calls.map Prod.fst)).Nodup)
    (hb : isBlank text = false) :
    analyzeWithProvider p (AnalyzeOutcome.raises msg) =
      ⟨p, false, [], some msg⟩ ∧
    ((∃ c ∈ calls, outcomeSucceeds c.2 = true) →
      p ∈ (analyzeArticle text calls).1.failed_providers ∧
      (∀ s ∈ (analyzeArticle text calls).1.sentences, ¬ p ∈ s.selected_by) ∧
      (analyzeArticle text calls).1.successful_providers =
        (calls.filter fun c => outcomeSucceeds c.2).map Prod.fst ∧
      (analyzeArticle text calls).1.failed_providers =
        (calls.filter fun c => !outcomeSucceeds c.2).map Prod.fst) ∧
    ((∀ c ∈ calls, outcomeSucceeds c.2 = false) →
      (analyzeArticle text calls).1.success = false ∧
      (analyzeArticle text calls).1.error = some "All providers failed" ∧
      (analyzeArticle text calls).1.sentences = [] ∧
      (analyzeArticle text calls).1.failed_providers = []) := by
  refine ⟨rfl, ?_, ?_⟩
  · intro hsome
    rw [analyzeArticle_not_blank text calls hb]
    obtain ⟨hsp, hfp, _⟩ := calculateConsensus_fields calls.length calls hsome
    refine ⟨?_, ?_, hsp, hfp⟩
    · rw [hfp]
      refine List.mem_map.mpr ⟨(p, AnalyzeOutcome.raises msg), ?_, rfl⟩
      exact List.mem_filter.mpr ⟨hmem, by simp [outcomeSucceeds]⟩
    · intro s hs hp
      obtain ⟨r, hr, hrp, _⟩ := selected_by_from_results _ _ s hs p hp
      rw [results_filter_success] at hr
      obtain ⟨c, hc, rfl⟩ := List.mem_map.mp hr
      have hcc : c ∈ calls := List.mem_of_mem_filter hc
      have hcs : outcomeSucceeds c.2 = true := (List.mem_filter.mp hc).2
      have hfst : c.1 = p := by
        rw [← analyzeWithProvider_provider c.1 c.2]
        exact hrp
      have : c = (p, AnalyzeOutcome.raises msg) :=
        eq_of_mem_map_fst_nodup hnd hcc hmem hfst
      rw [this] at hcs
      simp [outcomeSucceeds] at hcs
  · intro hall
    rw [analyzeArticle_not_blank text calls hb]
    have hfe : ((calls.map fun c => analyzeWithProvider c.1 c.2).filter
        fun r => r.success) = [] := by
      rw [results_filter_success]
      have hnil : calls.filter (fun c => outcomeSucceeds c.2) = [] := by
        rw [List.filter_eq_nil_iff]
        intro c hc
        simp [hall c hc]
      rw [hnil]
      rfl
    refine ⟨?_, ?_, ?_, ?_⟩ <;> simp [calculateConsensus, hfe]

/-- Witness for the amended C7, exercising both branches: mistral raising
next to a succeeding gemini, and a lone gemini whose only call raises. -/
theorem c7_raising_call_converted_witness :
    (analyzeWithProvider "mistral" (AnalyzeOutcome.raises "boom") =
      ⟨"mistral", false, [], some "boom"⟩ ∧
    ((∃ c ∈ [("gemini", AnalyzeOutcome.returnsDict [("S1", "r1")]),
         ("mistral", AnalyzeOutcome.raises "boom")], outcomeSucceeds c.2 = true) →
      "mistral" ∈ (analyzeArticle "t"
          [("gemini", AnalyzeOutcome.returnsDict [("S1", "r1")]),
           ("mistral", AnalyzeOutcome.raises "boom")]).1.failed_providers ∧
      (∀ s ∈ (analyzeArticle "t"
          [("gemini", AnalyzeOutcome.returnsDict [("S1", "r1")]),
           ("mistral", AnalyzeOutcome.raises "boom")]).1.sentences,
        ¬ "mistral" ∈ s.selected_by) ∧
      (analyzeArticle "t"
          [("gemini", AnalyzeOutcome.returnsDict [("S1", "r1")]),
           ("mistral", AnalyzeOutcome.raises "boom")]).1.successful_providers =
        ([("gemini", AnalyzeOutcome.returnsDict [("S1", "r1")]),
           ("mistral", AnalyzeOutcome.raises "boom")].filter
          fun c => outcomeSucceeds c.2).map Prod.fst ∧
      (analyzeArticle "t"
          [("gemini", AnalyzeOutcome.returnsDict [("S1", "r1")]),
           ("mistral", AnalyzeOutcome.raises "boom")]).1.failed_providers =
        ([("gemini", AnalyzeOutcome.returnsDict [("S1", "r1")]),
           ("mistral", AnalyzeOutcome.raises "boom")].filter
          fun c => !outcomeSucceeds c.2).map Prod.fst) ∧
    ((∀ c ∈ [("gemini", AnalyzeOutcome.returnsDict [("S1", "r1")]),
         ("mistral", AnalyzeOutcome.raises "boom")], outcomeSucceeds c.2 = false) →
      (analyzeArticle "t"
          [("gemini", AnalyzeOutcome.returnsDict [("S1", "r1")]),
           ("mistral", AnalyzeOutcome.raises "boom")]).1.success = false ∧
      (analyzeArticle "t"
          [("gemini", AnalyzeOutcome.returnsDict [("S1", "r1")]),
           ("mistral", AnalyzeOutcome.raises "boom")]).1.error =
        some "All providers failed" ∧
      (analyzeArticle "t"
          [("gemini", AnalyzeOutcome.returnsDict [("S1", "r1")]),
           ("mistral", AnalyzeOutcome.raises "boom")]).1.sentences = [] ∧
      (analyzeArticle "t"
          [("gemini", AnalyzeOutcome.returnsDict [("S1", "r1")]),
           ("mistral", AnalyzeOutcome.raises "boom")]).1.failed_providers = [])) ∧
    ((analyzeArticle "t" [("gemini", AnalyzeOutcome.raises "boom")]).1.success = false ∧
      (analyzeArticle "t" [("gemini", AnalyzeOutcome.raises "boom")]).1.error =
        some "All providers failed" ∧
      (analyzeArticle "t" [("gemini", AnalyzeOutcome.raises "boom")]).1.sentences = [] ∧
      (analyzeArticle "t" [("gemini", AnalyzeOutcome.raises "boom")]).1.failed_providers = []) :=
  ⟨c7_raising_call_converted "t"
    [("gemini", AnalyzeOutcome.returnsDict [("S1", "r1")]),
     ("mistral", AnalyzeOutcome.raises "boom")]
    "mistral" "boom" (by decide) (by decide) (by decide),
   (c7_raising_call_converted "t" [("gemini", AnalyzeOutcome.raises "boom")]
      "gemini" "boom" (by decide) (by decide) (by decide)).2.2 (by decide)⟩

/-- C10: a call that returns a non-dict value is still recorded as a
success with an empty sentence dict: the provider counts toward
`total_successful` and appears in `successful_providers`, not in
`failed_providers`, and contributes no sentence. -/
theorem c10_nondict_counts_as_success (text : String)
    (calls : List (String × AnalyzeOutcome)) (p : String)
    (hmem : (p, AnalyzeOutcome.returnsNonDict) ∈ calls)
    (hnd : ((calls.map Prod.fst)).Nodup)
    (hb : isBlank text = false) :
    analyzeWithProvider p AnalyzeOutcome.returnsNonDict = ⟨p, true, [], none⟩ ∧
    (analyzeArticle text calls).1.success = true ∧
    p ∈ (analyzeArticle text calls).1.successful_providers ∧
    ¬ p ∈ (analyzeArticle text calls).1.failed_providers ∧
    (∀ s ∈ (analyzeArticle text calls).1.sentences, ¬ p ∈ s.selected_by) ∧
    (analyzeArticle text calls).1.successful_providers.length =
      (calls.filter fun c => outcomeSucceeds c.2).length := by
  have hsome : ∃ c ∈ calls, outcomeSucceeds c.2 = true :=
    ⟨(p, AnalyzeOutcome.returnsNonDict), hmem, rfl⟩
  rw [analyzeArticle_not_blank text calls hb]
  obtain ⟨hsp, hfp, hsucc⟩ := calculateConsensus_fields calls.length calls hsome
  refine ⟨rfl, hsucc, ?_, ?_, ?_, ?_⟩
  · rw [hsp]
    refine List.mem_map.mpr ⟨(p, AnalyzeOutcome.returnsNonDict), ?_, rfl⟩
    exact List.mem_filter.mpr ⟨hmem, rfl⟩
  · rw [hfp]
    intro hpmem
    obtain ⟨c, hc, hcp⟩ := List.mem_map.mp hpmem
    have hcc : c ∈ calls := List.mem_of_mem_filter hc
    have hcf : (!outcomeSucceeds c.2) = true := (List.mem_filter.mp hc).2
    have : c = (p, AnalyzeOutcome.returnsNonDict) :=
      eq_of_mem_map_fst_nodup hnd hcc hmem hcp
    rw [this] at hcf
    simp [outcomeSucceeds] at hcf
  · intro s hs hp
    obtain ⟨r, hr, hrp, hrne⟩ := selected_by_from_results _ _ s hs p hp
    rw [results_filter_success] at hr
    obtain ⟨c, hc, rfl⟩ := List.mem_map.mp hr
    have hcc : c ∈ calls := List.mem_of_mem_filter hc
    have hfst : c.1 = p := by
      rw [← analyzeWithProvider_provider c.1 c.2]
      exact hrp
    have hcp : c = (p, AnalyzeOutcome.returnsNonDict) :=
      eq_of_mem_map_fst_nodup hnd hcc hmem hfst
    rw [hcp] at hrne
    exact hrne rfl
  · rw [hsp, List.length_map]

/-- Witness for C10: gemini returns a non-dict value next to a succeeding
mistral. -/
theorem c10_nondict_counts_as_success_witness :
    analyzeWithProvider "gemini" AnalyzeOutcome.returnsNonDict =
      ⟨"gemini", true, [], none⟩ ∧
    (analyzeArticle "t"
        [("gemini", AnalyzeOutcome.returnsNonDict),
         ("mistral", AnalyzeOutcome.returnsDict [("S1", "r1")])]).1.success = true ∧
    "gemini" ∈ (analyzeArticle "t"
        [("gemini", AnalyzeOutcome.returnsNonDict),
         ("mistral", AnalyzeOutcome.returnsDict [("S1", "r1")])]).1.successful_providers ∧
    ¬ "gemini" ∈ (analyzeArticle "t"
        [("gemini", AnalyzeOutcome.returnsNonDict),
         ("mistral", AnalyzeOutcome.returnsDict [("S1", "r1")])]).1.failed_providers ∧
    (∀ s ∈ (analyzeArticle "t"
        [("gemini", AnalyzeOutcome.returnsNonDict),
         ("mistral", AnalyzeOutcome.returnsDict [("S1", "r1")])]).1.sentences,
      ¬ "gemini" ∈ s.selected_by) ∧
    (analyzeArticle "t"
        [("gemini", AnalyzeOutcome.returnsNonDict),
         ("mistral", AnalyzeOutcome.returnsDict [("S1", "r1")])]).1.successful_providers.length =
      ([("gemini", AnalyzeOutcome.returnsNonDict),
         ("mistral", AnalyzeOutcome.returnsDict [("S1", "r1")])].filter
        fun c => outcomeSucceeds c.2).length :=
  c10_nondict_counts_as_success "t"
    [("gemini", AnalyzeOutcome.returnsNonDict),
     ("mistral", AnalyzeOutcome.returnsDict [("S1", "r1")])]
    "gemini" (by decide) (by decide) (by decide)

/-- When every dispatched call fails, `analyze_article` reports overall
failure with an explanatory error and no sentences (this also covers the
blank-article early return, which dispatches nothing). -/
theorem analyzeArticle_all_fail (text : String)
    (calls : List (String × AnalyzeOutcome))
    (h : ∀ c ∈ calls, outcomeSucceeds c.2 = false) :
    (analyzeArticle text calls).1.success = false ∧
    (∃ e, (analyzeArticle text calls).1.error = some e) ∧
    (analyzeArticle text calls).1.sentences = [] := by
  cases hb : isBlank text with
  | true =>
    refine ⟨by simp [analyzeArticle, hb], ⟨"Empty article text", by simp [analyzeArticle, hb]⟩,
      by simp [analyzeArticle, hb]⟩
  | false =>
    rw [analyzeArticle_not_blank text calls hb]
    have hfe : ((calls.map fun c => analyzeWithProvider c.1 c.2).filter
        fun r => r.success) = [] := by
      rw [results_filter_success]
      have hnil : calls.filter (fun c => outcomeSucceeds c.2) = [] := by
        rw [List.filter_eq_nil_iff]
        intro c hc
        simp [h c hc]
      rw [hnil]
      rfl
    refine ⟨?_, ⟨"All providers failed", ?_⟩, ?_⟩ <;>
      simp [calculateConsensus, hfe]

/-- C6 counterexample: when every requested provider fails construction,
the engine does not return a `success == false` result at all — analyzer
construction raises `ValueError` (the `Except.error` case), so there is no
result dict and in particular no `sentences == []` field. -/
theorem c6_counterexample_construction_failure :
    consensusRun ["gemini", "mistral"] (fun _ => false) "hello"
      (fun _ => AnalyzeOutcome.raises "x") =
      Except.error "No LLM providers initialized" := rfl

/-- C6 amended: if every requested provider fails construction, the run
raises (`No LLM providers initialized`) instead of returning a result; if
at least one provider is constructed and every dispatched call fails, the
run returns a result with `success == false`, an explanatory error, and
`sentences == []`. -/
theorem c6_amended_zero_success_split (requested : List String)
    (ok : String → Bool) (text : String) (outs : String → AnalyzeOutcome) :
    (instancesOf requested ok = [] →
      consensusRun requested ok text outs =
        Except.error "No LLM providers initialized") ∧
    (instancesOf requested ok ≠ [] →
      (∀ p ∈ instancesOf requested ok, outcomeSucceeds (outs p) = false) →
      ∃ r, consensusRun requested ok text outs = Except.ok r ∧
        r.success = false ∧ (∃ e, r.error = some e) ∧ r.sentences = []) := by
  constructor
  · intro h
    simp [consensusRun, h]
  · intro h1 h2
    have hie : (instancesOf requested ok).isEmpty = false := by
      cases hmm : (instancesOf requested ok).isEmpty
      · rfl
      · rw [List.isEmpty_iff] at hmm
        exact absurd hmm h1
    have hall : ∀ c ∈ (instancesOf requested ok).map fun p => (p, outs p),
        outcomeSucceeds c.2 = false := by
      intro c hc
      obtain ⟨p, hp, rfl⟩ := List.mem_map.mp hc
      exact h2 p hp
    refine ⟨(analyzeArticle text ((instancesOf requested ok).map fun p => (p, outs p))).1,
      by simp [consensusRun, hie], ?_⟩
    exact analyzeArticle_all_fail text _ hall

/-- Witness for the amended C6: both branches at concrete runs — all
construction failing, and one constructed gemini whose call raises. -/
theorem c6_amended_zero_success_split_witness :
    consensusRun ["gemini"] (fun _ => false) "hello"
      (fun _ => AnalyzeOutcome.raises "x") =
      Except.error "No LLM providers initialized" ∧
    (∃ r, consensusRun ["gemini"] (fun _ => true) "hello"
        (fun _ => AnalyzeOutcome.raises "x") = Except.ok r ∧
      r.success = false ∧ (∃ e, r.error = some e) ∧ r.sentences = []) :=
  ⟨(c6_amended_zero_success_split ["gemini"] (fun _ => false) "hello"
      (fun _ => AnalyzeOutcome.raises "x")).1 (by decide),
   (c6_amended_zero_success_split ["gemini"] (fun _ => true) "hello"
      (fun _ => AnalyzeOutcome.raises "x")).2 (by decide)
      (fun _ _ => rfl)⟩

/-- A JSON value passes the string test exactly when it is a string. -/
theorem jvalue_isStr_iff (v : JValue) : v.isStr = true ↔ ∃ s, v = JValue.str s := by
  cases v <;> simp [JValue.isStr]

/-- C8: response parsing first strips optional code fences
(`_clean_json_response`), then returns the parsed mapping exactly when the
cleaned text parses as a JSON object all of whose keys and values are
strings (keys from `json.loads` are strings by construction); every other
shape — parse failure, non-object, or a non-string value — is a raised
`JSONParseError`, never a coerced result.  The two closing equations show
the fence stripping on a fenced and a merely padded payload. -/
theorem c8_parse_validation :
    (∀ (loads : String → Option JValue) (text : String) (m : List (String × String)),
      parseJsonResponse loads text = Except.ok m ↔
        ∃ kvs : List (String × JValue),
          loads (cleanJsonResponse text) = some (JValue.obj kvs) ∧
          (∀ kv ∈ kvs, ∃ s, kv.2 = JValue.str s) ∧
          m = kvs.map fun kv => (kv.1, kv.2.strValue)) ∧
    cleanJsonResponse "```json\n\x7b\"k\": \"v\"\x7d\n```" = "\x7b\"k\": \"v\"\x7d" ∧
    cleanJsonResponse "  \x7b\"k\": \"v\"\x7d  " = "\x7b\"k\": \"v\"\x7d" := by
  refine ⟨?_, by decide, by decide⟩
  intro loads text m
  unfold parseJsonResponse
  cases h : loads (cleanJsonResponse text) with
  | none => simp
  | some v =>
    cases v with
    | null => simp
    | bool b => simp
    | num n => simp
    | str s => simp
    | arr l => simp
    | obj kvs =>
      by_cases hall : kvs.all (fun kv => kv.2.isStr)
      · simp only [hall, if_true, Except.ok.injEq, Option.some.injEq]
        constructor
        · intro hm
          refine ⟨kvs, rfl, ?_, hm.symm⟩
          intro kv hkv
          exact (jvalue_isStr_iff kv.2).mp (List.all_eq_true.mp hall kv hkv)
        · rintro ⟨kvs', heq, _, hm⟩
          cases heq
          exact hm.symm
      · simp only [hall, if_false, Bool.false_eq_true]
        constructor
        · intro hcontr
          cases hcontr
        · rintro ⟨kvs', heq, hstr, _⟩
          rcases heq with rfl | _
          exfalso
          apply hall
          rw [List.all_eq_true]
          intro kv hkv
          obtain ⟨s, hs⟩ := hstr kv hkv
          rw [hs]
          rfl
